import Mathlib

/-!
Formal model of the RAiDER tropospheric delay pipeline (`delay.py`), together
with the geometry helpers of `tools/RAiDER/mathFcns.py`.

Numeric values are modelled by `EF`, an idealised IEEE-style scalar: either
NaN, a signed infinity, or an exact rational.  Overflow of finite values is
not modelled (rationals are unbounded); the NaN/infinity propagation rules of
numpy float arithmetic are modelled exactly.  Arrays are modelled as lists
(with an explicit `Arr` wrapper carrying a numpy shape where shapes matter).
-/

namespace Raider

/-- Extended float scalar: NaN, a signed infinity (`inf true` is plus
infinity), or a finite value represented by an exact rational. -/
inductive EF where
  | nan : EF
  | inf : Bool → EF
  | fin : ℚ → EF
deriving DecidableEq

/-- Truth value of `np.isnan` on a scalar. -/
def EF.isNan : EF → Bool
  | .nan => true
  | _ => false

/-- Truth value of `np.isfinite` on a scalar. -/
def EF.isFinite : EF → Bool
  | .fin _ => true
  | _ => false

/-- IEEE-style addition on `EF` scalars. -/
def EF.add : EF → EF → EF
  | .nan, _ => .nan
  | _, .nan => .nan
  | .inf s, .inf t => if s = t then .inf s else .nan
  | .inf s, .fin _ => .inf s
  | .fin _, .inf t => .inf t
  | .fin a, .fin b => .fin (a + b)

/-- IEEE-style negation on `EF` scalars. -/
def EF.neg : EF → EF
  | .nan => .nan
  | .inf s => .inf (!s)
  | .fin a => .fin (-a)

/-- IEEE-style subtraction on `EF` scalars. -/
def EF.sub (x y : EF) : EF := EF.add x (EF.neg y)

/-- IEEE-style multiplication on `EF` scalars (`inf * 0 = nan`). -/
def EF.mul : EF → EF → EF
  | .nan, _ => .nan
  | _, .nan => .nan
  | .inf s, .inf t => .inf (s == t)
  | .inf s, .fin b => if b = 0 then .nan else if 0 < b then .inf s else .inf (!s)
  | .fin a, .inf t => if a = 0 then .nan else if 0 < a then .inf t else .inf (!t)
  | .fin a, .fin b => .fin (a * b)

/-- IEEE-style division on `EF` scalars (`x / 0` is a signed infinity for
nonzero finite `x`, `0 / 0 = nan`, `inf / inf = nan`), matching numpy's
warning-but-no-exception semantics. -/
def EF.div : EF → EF → EF
  | .nan, _ => .nan
  | _, .nan => .nan
  | .inf _, .inf _ => .nan
  | .inf s, .fin b => if b = 0 then .inf s else if 0 < b then .inf s else .inf (!s)
  | .fin _, .inf _ => .fin 0
  | .fin a, .fin b =>
      if b = 0 then (if a = 0 then .nan else if 0 < a then .inf true else .inf false)
      else .fin (a / b)

/-- A 3-vector of `EF` scalars (one ECEF position or look vector). -/
abbrev EF3 := EF × EF × EF

/-- Componentwise vector addition. -/
def addV3 (u v : EF3) : EF3 :=
  (EF.add u.1 v.1, EF.add u.2.1 v.2.1, EF.add u.2.2 v.2.2)

/-- Scalar times vector, componentwise. -/
def smul3 (t : EF) (v : EF3) : EF3 :=
  (EF.mul t v.1, EF.mul t v.2.1, EF.mul t v.2.2)

/-- Vector divided by a scalar, componentwise (`look_vecs / lengths[..., np.newaxis]`). -/
def div3 (v : EF3) (l : EF) : EF3 :=
  (EF.div v.1 l, EF.div v.2.1 l, EF.div v.2.2 l)

/-- Sum of squares of the three components, in `EF` arithmetic. -/
def sumSq3 (v : EF3) : EF :=
  EF.add (EF.add (EF.mul v.1 v.1) (EF.mul v.2.1 v.2.1)) (EF.mul v.2.2 v.2.2)

/-- Euclidean norm of an `EF` 3-vector, as computed by `np.linalg.norm`: the
square root of the sum of squares.  The square root of a finite value is
taken by the abstract rational square root `sq` (the exact finite value of a
float square root is irrational in general; no claim depends on it). -/
def normE (sq : ℚ → ℚ) (v : EF3) : EF :=
  match sumSq3 v with
  | .nan => .nan
  | .inf _ => .inf true
  | .fin q => .fin (sq q)

/-- Python exception kinds raised by the modelled code paths. -/
inductive PyErr where
  | valueError : PyErr
  | nameError : PyErr
deriving DecidableEq

/-- Model of `np.arange(0, stop, step)` for finite float `stop` and positive
`step`: the samples `k * step` for `0 ≤ k < ceil(stop / step)`. -/
def npArange (stop step : ℚ) : List ℚ :=
  (List.range (Int.toNat ⌈stop / step⌉)).map (fun k => (k : ℚ) * step)

/-- Model of `np.arange(0, stop, step)` on an `EF` stop value: a non-finite
stop makes `np.arange` raise `ValueError` (it cannot compute the length). -/
def npArangeE (stop : EF) (step : ℚ) : Except PyErr (List ℚ) :=
  match stop with
  | .fin q => Except.ok (npArange q step)
  | _ => Except.error PyErr.valueError

/-- Model of `_compute_ray(L, S, V, stepSize)` from `delay.py`: samples
`np.arange(0, L, stepSize)`, catching the `ValueError` raised for invalid
(non-finite) `L` and using an empty sample list in that case, then returns
the positions `S + t * V` for each sample `t`. -/
def compute_ray (L : EF) (S V : EF3) (stepSize : ℚ) : List EF3 :=
  let thisspace : List ℚ :=
    match npArangeE L stepSize with
    | Except.ok xs => xs
    | Except.error _ => []
  thisspace.map (fun t => addV3 S (smul3 (EF.fin t) V))

/-- Model of `np.nansum`: NaN entries are treated as zero, all other entries
are accumulated with `EF` addition starting from zero. -/
def npNansum (ys : List EF) : EF :=
  (ys.map (fun y => if y.isNan then EF.fin 0 else y)).foldl EF.add (EF.fin 0)

/-- Model of `int_fcn(y, dx)` from `delay.py`: `1e-6 * dx * np.nansum(y)`
(with the float literal `1e-6` idealised as the exact rational). -/
def int_fcn (y : List EF) (dx : ℚ) : EF :=
  EF.mul (EF.mul (EF.fin (1 / 1000000)) (EF.fin dx)) (npNansum y)

/-- Model of `_integrate_delays(stepSize, refr)` from `delay.py`: one
`int_fcn` quadrature per ray. -/
def integrate_delays (stepSize : ℚ) (refr : List (List EF)) : List EF :=
  refr.map (fun ray => int_fcn ray stepSize)

/-- Three-way zip, the model of Python `zip` over three equal-length
sequences (truncating at the shortest, as Python does). -/
def zw3 {α β γ δ : Type} (f : α → β → γ → δ) : List α → List β → List γ → List δ
  | a :: as, b :: bs, c :: cs => f a b c :: zw3 f as bs cs
  | _, _, _ => []

/-- Modelled from the spec: the collaborator environment of the delay
pipeline, bundling repository modules that are not part of the sources here
and external libraries.  `sind`, `cosd` and `lla2ecef` stand for the absent
`util` module's degree trig and geodetic-to-ECEF conversion (spec 4.1);
`transformPt` stands for the pointwise `pyproj.transform` reprojection into
the weather model frame (spec 4.3); `sqrtQ` is the abstract finite square
root used by the vector norm; `step` and `zref` stand for the absent
`constants` module's `_STEP` and `_ZMAX`. -/
structure Env where
  sqrtQ : ℚ → ℚ
  sind : EF → EF
  cosd : EF → EF
  lla2ecef : EF → EF → EF → EF3
  transformPt : EF3 → EF3
  step : ℚ
  zref : ℚ

/-- Modelled from the spec: the weather-model collaborator (spec section 6),
with the absent `interpolator` module's interpolators (spec 4.4) given as the
pointwise evaluation functions of the wet and hydrostatic refractivity
fields. -/
structure WeatherModel where
  wetF : EF3 → EF
  hydroF : EF3 → EF

/-- Refractivity component tag. -/
inductive Comp where
  | wet : Comp
  | hydro : Comp
deriving DecidableEq

/-- Interpolator lifecycle events recorded by the pipeline model: an
interpolator construction (`getIntFcn`) or one per-ray interpolator
evaluation. -/
inductive Event where
  | build : Comp → Event
  | evalRay : Comp → Event
deriving DecidableEq

/-- Truth value of "this event is an interpolator construction". -/
def Event.isBuild : Event → Bool
  | .build _ => true
  | _ => false

/-- Model of `getIntFcn(weatherObj, itype)` from `delay.py`.  The
`interpolator` module is absent from the sources; modelled from the spec
(4.4) as returning the collaborator's pointwise field for the requested
component.  A `build` event records the construction. -/
def getIntFcn (wm : WeatherModel) (c : Comp) : (EF3 → EF) × List Event :=
  (match c with
   | Comp.wet => wm.wetF
   | Comp.hydro => wm.hydroF,
   [Event.build c])

/-- Model of one `interpRayWet` / `interpRayHydro` call from `delay.py`:
evaluate an already-built interpolator on every point of one reprojected
ray.  An `evalRay` event records the evaluation. -/
def interpRay (f : EF3 → EF) (c : Comp) (ray : List EF3) : List EF × List Event :=
  (ray.map f, [Event.evalRay c])

/-- Model of `_get_lengths(look_vecs)` from `delay.py` on an array of
explicit look vectors: the Euclidean norm of each vector, with non-finite
norms overwritten by 0 (`lengths[~np.isfinite(lengths)] = 0`).  The
`look_vecs is Zenith` early return is unreachable from `_common_delay`,
which replaces the sentinel by synthesized vectors first. -/
def get_lengths (sq : ℚ → ℚ) (look_vecs : List EF3) : List EF :=
  look_vecs.map (fun v =>
    let n := normE sq v
    if n.isFinite then n else EF.fin 0)

/-- Model of `lengths[np.isnan(heights)] = np.nan` from `_common_delay`:
overwrite the length of every NaN-height point with NaN. -/
def mask_lengths (heights lengths : List EF) : List EF :=
  List.zipWith (fun h l => if h.isNan then EF.nan else l) heights lengths

/-- Model of `_getZenithLookVecs(lats, lons, heights, zref)` from `delay.py`
in `EF` arithmetic, with the absent `util` module's degree trig supplied by
the environment: per point, the up direction
`(cosd lat * cosd lon, cosd lat * sind lon, sind lat)` scaled by
`zref - height`. -/
def getZenithLookVecsE (env : Env) (lats lons heights : List EF) (zref : ℚ) : List EF3 :=
  zw3 (fun la lo h =>
    (EF.mul (EF.mul (env.cosd la) (env.cosd lo)) (EF.sub (EF.fin zref) h),
     EF.mul (EF.mul (env.cosd la) (env.sind lo)) (EF.sub (EF.fin zref) h),
     EF.mul (env.sind la) (EF.sub (EF.fin zref) h))) lats lons heights

/-- Model of `_common_delay` from `delay.py` on flattened point lists.
`look_vecs = none` is the Zenith sentinel.  Stages in source order: resolve
the Zenith sentinel, compute ray lengths and overwrite NaN-height lengths
with NaN, compute ECEF start positions, scale look vectors to unit length,
sample each ray (`_get_rays`), reproject each sample point, build the two
interpolators, evaluate them per ray, and integrate (`_integrateLOS`).
Returns `(wet delays, hydro delays)` (the order of `_integrateLOS`) together
with the interpolator lifecycle events in execution order.  The dask map of
the source preserves input order, so it is modelled as `List.map`. -/
def common_delay (env : Env) (wm : WeatherModel) (lats lons heights : List EF)
    (look_vecs : Option (List EF3)) (stepSize : ℚ) : (List EF × List EF) × List Event :=
  let lookv : List EF3 :=
    match look_vecs with
    | none => getZenithLookVecsE env lats lons heights env.zref
    | some v => v
  let lengths0 := get_lengths env.sqrtQ lookv
  let lengths := mask_lengths heights lengths0
  let start_positions := zw3 env.lla2ecef lats lons heights
  let scaled_look_vecs := List.zipWith div3 lookv lengths
  let positions := zw3 (fun L S V => compute_ray L S V stepSize) lengths start_positions scaled_look_vecs
  let newPts := positions.map (List.map env.transformPt)
  let ifWet := (getIntFcn wm Comp.wet).fst
  let ifHydro := (getIntFcn wm Comp.hydro).fst
  let wetPairs := newPts.map (interpRay ifWet Comp.wet)
  let hydroPairs := newPts.map (interpRay ifHydro Comp.hydro)
  let wet_pw := wetPairs.map Prod.fst
  let hydro_pw := hydroPairs.map Prod.fst
  ((integrate_delays stepSize wet_pw, integrate_delays stepSize hydro_pw),
    (getIntFcn wm Comp.wet).snd ++ (getIntFcn wm Comp.hydro).snd
      ++ (wetPairs.map Prod.snd).flatten ++ (hydroPairs.map Prod.snd).flatten)

/-- A numpy array modelled as a shape together with flattened data.  For
arrays whose last axis has extent 3 (lla triples, look vectors) the element
type is `EF3` and `shape` is the leading shape (all axes but the last). -/
structure Arr (α : Type) where
  shape : List ℕ
  data : List α
deriving DecidableEq

/-- The look-vector argument of the batch drivers: either the `Zenith`
sentinel class or an array of explicit per-point look vectors. -/
inductive LOSInput where
  | zenith : LOSInput
  | vecs : Arr EF3 → LOSInput
deriving DecidableEq

/-- Model of `delay_from_grid(weather, llas, los)` from `delay.py` (raytrace
path): save the shape, flatten, split lla components, run `_common_delay`,
and restore the shape — but, as in the source, the reshape of the outputs is
guarded by `if los is not Zenith`, so for the Zenith sentinel the outputs
stay flat (their shape is the flat length).  Returns `(hydro, wet)` and the
interpolator events. -/
def delay_from_grid (env : Env) (wm : WeatherModel) (llas : Arr EF3) (los : LOSInput) :
    (Arr EF × Arr EF) × List Event :=
  let pts := llas.data
  let lats := pts.map (fun p => p.1)
  let lons := pts.map (fun p => p.2.1)
  let hts := pts.map (fun p => p.2.2)
  let lv : Option (List EF3) :=
    match los with
    | LOSInput.zenith => none
    | LOSInput.vecs a => some a.data
  let r := common_delay env wm lats lons hts lv env.step
  let wet := r.fst.1
  let hydro := r.fst.2
  (match los with
   | LOSInput.zenith => (⟨[hydro.length], hydro⟩, ⟨[wet.length], wet⟩)
   | LOSInput.vecs _ => (⟨llas.shape, hydro⟩, ⟨llas.shape, wet⟩),
   r.snd)

/-- Model of `_tropo_delay_with_values` from `delay.py` (validation and
dispatch; the weather model and look vectors are taken as already
constructed).  The source computes `test1` (all of lat/lon/height share one
shape), then tries `test = los.shape[:-1] != hts.shape`: for an explicit
look-vector array this assignment succeeds and the local `test2` is left
unbound, so evaluating `if not test1 or test2` raises `NameError` whenever
`test1` holds; for the Zenith sentinel the attribute access fails and the
`except` branch sets `test2 = False`.  Either exception aborts the call
before any delay computation. -/
def tropo_delay_with_values (env : Env) (wm : WeatherModel) (los : LOSInput)
    (lats lons hts : Arr EF) : Except PyErr ((Arr EF × Arr EF) × List Event) :=
  if hts.shape = lats.shape ∧ lats.shape = lons.shape then
    match los with
    | LOSInput.vecs _ => Except.error PyErr.nameError
    | LOSInput.zenith =>
        let llas : Arr EF3 := ⟨lats.shape, zw3 (fun a b c => (a, b, c)) lats.data lons.data hts.data⟩
        Except.ok (delay_from_grid env wm llas LOSInput.zenith)
  else Except.error PyErr.valueError

/-- Model of `delay_from_files` from `delay.py` after the rasters have been
read: the shape consistency check on lat/lon/height raises `ValueError`
before `delay_from_grid` is invoked; on success the outputs are reshaped to
the lat raster's shape. -/
def delay_from_files (env : Env) (wm : WeatherModel) (lats lons hts : Arr EF)
    (los : LOSInput) : Except PyErr ((Arr EF × Arr EF) × List Event) :=
  if lats.shape = lons.shape ∧ lons.shape = hts.shape then
    let llas : Arr EF3 := ⟨[lats.data.length], zw3 (fun a b c => (a, b, c)) lats.data lons.data hts.data⟩
    let r := delay_from_grid env wm llas los
    Except.ok ((⟨lats.shape, r.fst.1.data⟩, ⟨lats.shape, r.fst.2.data⟩), r.snd)
  else Except.error PyErr.valueError

/-- Concrete collaborator environment used in concrete evaluations: constant
unit square root, trivial trig, identity geodetic conversion and
reprojection, integration step 1000 m, zref 15000 m. -/
def env0 : Env :=
  ⟨fun _ => 1, fun _ => EF.fin 0, fun _ => EF.fin 1,
   fun a b c => (a, b, c), fun p => p, 1000, 15000⟩

/-- Concrete weather model whose refractivity fields are the constant 1. -/
def wm0 : WeatherModel := ⟨fun _ => EF.fin 1, fun _ => EF.fin 1⟩

/-- A 2 x 2 batch of ground points at the origin with height 0 (an lla array
of numpy shape (2, 2, 3)). -/
def llas0 : Arr EF3 :=
  ⟨[2, 2], [(EF.fin 0, EF.fin 0, EF.fin 0), (EF.fin 0, EF.fin 0, EF.fin 0),
            (EF.fin 0, EF.fin 0, EF.fin 0), (EF.fin 0, EF.fin 0, EF.fin 0)]⟩

/-- A 2 x 2 batch of explicit unit-x look vectors. -/
def a0 : Arr EF3 :=
  ⟨[2, 2], [(EF.fin 1, EF.fin 0, EF.fin 0), (EF.fin 1, EF.fin 0, EF.fin 0),
            (EF.fin 1, EF.fin 0, EF.fin 0), (EF.fin 1, EF.fin 0, EF.fin 0)]⟩

/-- A single ground point whose height is NaN. -/
def llas1 : Arr EF3 := ⟨[1], [(EF.fin 0, EF.fin 0, EF.nan)]⟩

/-- A single explicit look vector for the NaN-height point. -/
def a1 : Arr EF3 := ⟨[1], [(EF.fin 1, EF.fin 0, EF.fin 0)]⟩

/-- A 2 x 2 scalar raster of zeros. -/
def lat22 : Arr EF := ⟨[2, 2], [EF.fin 0, EF.fin 0, EF.fin 0, EF.fin 0]⟩

/-- A length-3 scalar raster of zeros (shape-incompatible with `lat22`). -/
def lat3 : Arr EF := ⟨[3], [EF.fin 0, EF.fin 0, EF.fin 0]⟩

end Raider

noncomputable section

namespace Raider

/-- Model of `sind(x)` from `tools/RAiDER/mathFcns.py`: the sine of an angle
given in degrees, `np.sin(np.radians(x))`. -/
def sind (x : ℝ) : ℝ := Real.sin (x * (Real.pi / 180))

/-- Model of `cosd(x)` from `tools/RAiDER/mathFcns.py`: the cosine of an
angle given in degrees, `np.cos(np.radians(x))`. -/
def cosd (x : ℝ) : ℝ := Real.cos (x * (Real.pi / 180))

/-- Model of `_getZenithLookVecs(lat, lon, height, zref)` from `delay.py`
over exact reals for one ground point: the unit up direction scaled by
`zref - height`. -/
def getZenithLookVecsR (lat lon height zref : ℝ) : ℝ × ℝ × ℝ :=
  (cosd lat * cosd lon * (zref - height),
   cosd lat * sind lon * (zref - height),
   sind lat * (zref - height))

end Raider

end

namespace Raider

lemma zw3_length {α β γ δ : Type} (f : α → β → γ → δ) (as : List α) (bs : List β)
    (cs : List γ) : (zw3 f as bs cs).length = min (min as.length bs.length) cs.length := by
  induction as generalizing bs cs with
  | nil => cases bs <;> cases cs <;> simp [zw3]
  | cons a as ih =>
    cases bs with
    | nil => cases cs <;> simp [zw3]
    | cons b bs =>
      cases cs with
      | nil => simp [zw3]
      | cons c cs =>
        simp only [zw3, List.length_cons, ih]
        omega

lemma compute_ray_fin (L : ℚ) (S V : EF3) (d : ℚ) :
    compute_ray (EF.fin L) S V d
      = (List.range (Int.toNat ⌈L / d⌉)).map
          (fun k => addV3 S (smul3 (EF.fin ((k : ℚ) * d)) V)) := by
  simp [compute_ray, npArangeE, npArange, List.map_map, Function.comp]

lemma npArange_count (L d : ℚ) (hd : 0 < d) (k : ℕ) :
    (k : ℚ) * d < L ↔ k < Int.toNat ⌈L / d⌉ := by
  rw [Int.lt_toNat, Int.lt_ceil]
  push_cast
  rw [lt_div_iff₀ hd]

lemma bad_length_fin_nonpos (L : EF)
    (h : L = EF.nan ∨ (∃ s, L = EF.inf s) ∨ ∃ q, L = EF.fin q ∧ q ≤ 0) :
    ∀ q : ℚ, L = EF.fin q → q ≤ 0 := by
  intro q hq
  subst hq
  rcases h with h | ⟨s, h⟩ | ⟨r, h, hr⟩
  · exact absurd h (by simp)
  · exact absurd h (by simp)
  · rw [EF.fin.inj h]
    exact hr

lemma compute_ray_empty_of_bad (L : EF) (S V : EF3) (d : ℚ) (hd : 0 < d)
    (h : ∀ q : ℚ, L = EF.fin q → q ≤ 0) : compute_ray L S V d = [] := by
  cases L with
  | nan => rfl
  | inf s => rfl
  | fin q =>
    have hq : q ≤ 0 := h q rfl
    have hqd : q / d ≤ 0 := div_nonpos_of_nonpos_of_nonneg hq hd.le
    have hceil : ⌈q / d⌉ ≤ 0 := by
      rw [Int.ceil_le]
      exact_mod_cast hqd
    simp [compute_ray, npArangeE, npArange, Int.toNat_of_nonpos hceil]

lemma int_fcn_nil (dx : ℚ) : int_fcn [] dx = EF.fin 0 := by
  simp [int_fcn, npNansum, EF.mul]

/-- Claim C4: for every finite length L > 0, start S, direction V and step
size d > 0, `_compute_ray` returns the positions `S + k*d*V` for exactly the
k with `k*d < L`; in particular length 100, start (0,0,0), direction
(1,0,0), step 10 yields exactly the 10 samples x = 0, 10, ..., 90 and never
a sample at x = 100. -/
theorem compute_ray_samples (L d : ℚ) (S V : EF3) (_hL : 0 < L) (hd : 0 < d) :
    (compute_ray (EF.fin L) S V d
        = (List.range (Int.toNat ⌈L / d⌉)).map
            (fun k => addV3 S (smul3 (EF.fin ((k : ℚ) * d)) V)))
    ∧ (∀ k : ℕ, ((k : ℚ) * d < L ↔ k < Int.toNat ⌈L / d⌉))
    ∧ compute_ray (EF.fin 100) (EF.fin 0, EF.fin 0, EF.fin 0)
        (EF.fin 1, EF.fin 0, EF.fin 0) 10
        = (List.range 10).map (fun k => (EF.fin ((k : ℚ) * 10), EF.fin 0, EF.fin 0)) := by
  refine ⟨compute_ray_fin L S V d, fun k => npArange_count L d hd k, ?_⟩
  have hc : (⌈(100 : ℚ) / 10⌉ : ℤ) = 10 := by norm_num
  rw [compute_ray_fin, hc]
  simp [addV3, smul3, EF.mul, EF.add]

/-- Witness for C4 at length 100, step 10. -/
theorem compute_ray_samples_witness :
    (0 : ℚ) < 100 ∧ (0 : ℚ) < 10 ∧
      compute_ray (EF.fin 100) (EF.fin 0, EF.fin 0, EF.fin 0)
          (EF.fin 1, EF.fin 0, EF.fin 0) 10
        = (List.range 10).map (fun k => (EF.fin ((k : ℚ) * 10), EF.fin 0, EF.fin 0)) :=
  ⟨by norm_num, by norm_num,
    (compute_ray_samples 100 10 (EF.fin 0, EF.fin 0, EF.fin 0)
      (EF.fin 1, EF.fin 0, EF.fin 0) (by norm_num) (by norm_num)).2.2⟩

/-- Claim C5: for every non-finite (NaN or infinite) or non-positive length,
any start position, direction and positive step size, `_compute_ray` returns
the empty sequence of sample positions (the `ValueError` raised by
`np.arange` on non-finite lengths is caught, so no error escapes; the model
is a total function). -/
theorem compute_ray_invalid_length_empty (L : EF) (S V : EF3) (d : ℚ) (hd : 0 < d)
    (h : L = EF.nan ∨ (∃ s, L = EF.inf s) ∨ ∃ q, L = EF.fin q ∧ q ≤ 0) :
    compute_ray L S V d = [] :=
  compute_ray_empty_of_bad L S V d hd (bad_length_fin_nonpos L h)

/-- Witness for C5 at a NaN length. -/
theorem compute_ray_invalid_length_empty_witness :
    (0 : ℚ) < 10 ∧
      (EF.nan = EF.nan ∨ (∃ s, EF.nan = EF.inf s) ∨ ∃ q, EF.nan = EF.fin q ∧ q ≤ 0) ∧
      compute_ray EF.nan (EF.fin 0, EF.fin 0, EF.fin 0)
          (EF.fin 1, EF.fin 0, EF.fin 0) 10 = [] :=
  ⟨by norm_num, Or.inl rfl,
    compute_ray_invalid_length_empty EF.nan (EF.fin 0, EF.fin 0, EF.fin 0)
      (EF.fin 1, EF.fin 0, EF.fin 0) 10 (by norm_num) (Or.inl rfl)⟩

/-- Claim C6: the integrator is `1e-6 * dx * nansum(y)` with NaN samples
skipped rather than propagated: dropping a NaN sample never changes the
result, `int_fcn([1e6, 1e6], 10) = 20` and `int_fcn([1e6, NaN], 10) = 10`. -/
theorem int_fcn_nansum_policy :
    (∀ (ys : List EF) (dx : ℚ), int_fcn (EF.nan :: ys) dx = int_fcn ys dx)
    ∧ int_fcn [EF.fin 1000000, EF.fin 1000000] 10 = EF.fin 20
    ∧ int_fcn [EF.fin 1000000, EF.nan] 10 = EF.fin 10 := by
  refine ⟨?_, by norm_num [int_fcn, npNansum, EF.isNan, EF.add, EF.mul],
    by norm_num [int_fcn, npNansum, EF.isNan, EF.add, EF.mul]⟩
  intro ys dx
  have h0 : EF.add (EF.fin 0) (EF.fin 0) = EF.fin 0 := by simp [EF.add]
  simp [int_fcn, npNansum, EF.isNan, h0]

/-- Claim C10: the integrator returns exactly 0 on an empty sample sequence,
for every step size; hence a ray with zero sample points, such as the one
`_compute_ray` produces for a non-finite or non-positive length, contributes
a delay of exactly 0 after pointwise interpolation. -/
theorem empty_ray_zero_delay (dx d : ℚ) (L : EF) (S V : EF3) (f : EF3 → EF)
    (hd : 0 < d)
    (h : L = EF.nan ∨ (∃ s, L = EF.inf s) ∨ ∃ q, L = EF.fin q ∧ q ≤ 0) :
    int_fcn [] dx = EF.fin 0
    ∧ int_fcn ((compute_ray L S V d).map f) d = EF.fin 0 := by
  refine ⟨int_fcn_nil dx, ?_⟩
  rw [compute_ray_empty_of_bad L S V d hd (bad_length_fin_nonpos L h)]
  simpa using int_fcn_nil d

/-- Witness for C10 at a NaN length and step 10. -/
theorem empty_ray_zero_delay_witness :
    (0 : ℚ) < 10 ∧
      (EF.nan = EF.nan ∨ (∃ s, EF.nan = EF.inf s) ∨ ∃ q, EF.nan = EF.fin q ∧ q ≤ 0) ∧
      (int_fcn [] 5 = EF.fin 0
       ∧ int_fcn ((compute_ray EF.nan (EF.fin 0, EF.fin 0, EF.fin 0)
           (EF.fin 1, EF.fin 0, EF.fin 0) 10).map (fun _ => EF.fin 1)) 10 = EF.fin 0) :=
  ⟨by norm_num, Or.inl rfl,
    empty_ray_zero_delay 5 10 EF.nan (EF.fin 0, EF.fin 0, EF.fin 0)
      (EF.fin 1, EF.fin 0, EF.fin 0) (fun _ => EF.fin 1) (by norm_num) (Or.inl rfl)⟩

/-- Claim C7: the synthesized zenith look vector is the unit up direction
`(cosd lat * cosd lon, cosd lat * sind lon, sind lat)` scaled by
`zref - height`; at lat = 0, lon = 0, height = 0, zref = 15000 it equals
(15000, 0, 0). -/
theorem zenith_look_vector_formula :
    (∀ lat lon height zref : ℝ,
        getZenithLookVecsR lat lon height zref
          = (cosd lat * cosd lon * (zref - height),
             cosd lat * sind lon * (zref - height),
             sind lat * (zref - height)))
    ∧ getZenithLookVecsR 0 0 0 15000 = (15000, 0, 0) := by
  refine ⟨fun lat lon height zref => rfl, ?_⟩
  simp [getZenithLookVecsR, cosd, sind]

lemma get_lengths_not_nan (sq : ℚ → ℚ) (vecs : List EF3) :
    ∀ x ∈ get_lengths sq vecs, x ≠ EF.nan := by
  intro x hx
  simp only [get_lengths, List.mem_map] at hx
  obtain ⟨v, hv, rfl⟩ := hx
  cases hn : normE sq v with
  | nan => simp [hn, EF.isFinite]
  | inf s => simp [hn, EF.isFinite]
  | fin q => simp [hn, EF.isFinite]

lemma zip_get_lengths (sq : ℚ → ℚ) (vecs : List EF3) :
    ∀ p ∈ List.zip vecs (get_lengths sq vecs),
      ¬ (normE sq p.1).isFinite = true → p.2 = EF.fin 0 := by
  induction vecs with
  | nil => simp [get_lengths]
  | cons v vs ih =>
    intro p hp hfin
    simp only [get_lengths, List.map_cons, List.zip_cons_cons, List.mem_cons] at hp
    rcases hp with rfl | hp
    · simp only at hfin ⊢
      simp [hfin]
    · exact ih p (by simpa [get_lengths] using hp) hfin

lemma mask_lengths_nan_iff (hs : List EF) :
    ∀ (ls : List EF), hs.length = ls.length → (∀ x ∈ ls, x ≠ EF.nan) →
      ∀ p ∈ List.zip hs (mask_lengths hs ls), (p.2 = EF.nan ↔ p.1 = EF.nan) := by
  induction hs with
  | nil => simp [mask_lengths]
  | cons a hs ih =>
    intro ls hlen hnn
    cases ls with
    | nil => simp at hlen
    | cons l ls =>
      intro p hp
      simp only [mask_lengths, List.zipWith_cons_cons, List.zip_cons_cons,
        List.mem_cons] at hp
      rcases hp with rfl | hp
      · have hl : l ≠ EF.nan := hnn l (List.mem_cons_self l ls)
        cases a with
        | nan => simp [EF.isNan]
        | inf s => simp [EF.isNan, hl]
        | fin q => simp [EF.isNan, hl]
      · exact ih ls (by simpa using hlen)
          (fun x hx => hnn x (List.mem_cons_of_mem l hx)) p hp

/-- Claim C8: in `_get_lengths`, every look vector whose Euclidean norm is
non-finite is assigned length 0; after the `_common_delay` masking step
`lengths[np.isnan(heights)] = np.nan`, a point carries a NaN length if and
only if its height is NaN. -/
theorem length_nan_discipline (sq : ℚ → ℚ) (look_vecs : List EF3) (heights : List EF)
    (hlen : heights.length = look_vecs.length) :
    (∀ p ∈ List.zip look_vecs (get_lengths sq look_vecs),
        ¬ (normE sq p.1).isFinite = true → p.2 = EF.fin 0)
    ∧ (∀ p ∈ List.zip heights (mask_lengths heights (get_lengths sq look_vecs)),
        (p.2 = EF.nan ↔ p.1 = EF.nan)) := by
  refine ⟨zip_get_lengths sq look_vecs, ?_⟩
  exact mask_lengths_nan_iff heights (get_lengths sq look_vecs)
    (by simp [get_lengths, hlen]) (get_lengths_not_nan sq look_vecs)

/-- Witness for C8: one non-finite look vector and one NaN height. -/
theorem length_nan_discipline_witness :
    ([EF.nan] : List EF).length = ([((EF.inf true, EF.fin 0, EF.fin 0) : EF3)]).length
    ∧ ((∀ p ∈ List.zip [((EF.inf true, EF.fin 0, EF.fin 0) : EF3)]
            (get_lengths (fun q => q) [(EF.inf true, EF.fin 0, EF.fin 0)]),
          ¬ (normE (fun q => q) p.1).isFinite = true → p.2 = EF.fin 0)
        ∧ (∀ p ∈ List.zip [EF.nan]
              (mask_lengths [EF.nan]
                (get_lengths (fun q => q) [(EF.inf true, EF.fin 0, EF.fin 0)])),
            (p.2 = EF.nan ↔ p.1 = EF.nan))) :=
  ⟨rfl, length_nan_discipline (fun q => q) [(EF.inf true, EF.fin 0, EF.fin 0)] [EF.nan] rfl⟩

lemma flatten_const_evalRay_filter (c : Comp) {α : Type} (l : List α) :
    ((l.map (fun _ => [Event.evalRay c])).flatten).filter Event.isBuild = [] := by
  induction l with
  | nil => rfl
  | cons a as ih => simp [Event.isBuild, ih]

/-- Claim C9: in one `_common_delay` invocation the wet and the hydrostatic
interpolators are each constructed exactly once (the only two `build` events
of the batch trace), and both constructions precede every per-ray
interpolator evaluation (they are the first two events). -/
theorem interpolators_built_once_per_batch (env : Env) (wm : WeatherModel)
    (lats lons heights : List EF) (look_vecs : Option (List EF3)) (stepSize : ℚ) :
    ((common_delay env wm lats lons heights look_vecs stepSize).snd.filter Event.isBuild
        = [Event.build Comp.wet, Event.build Comp.hydro])
    ∧ ((common_delay env wm lats lons heights look_vecs stepSize).snd.take 2
        = [Event.build Comp.wet, Event.build Comp.hydro]) := by
  constructor
  · simp [common_delay, getIntFcn, interpRay, Event.isBuild,
      flatten_const_evalRay_filter, List.map_map, Function.comp]
  · simp [common_delay, getIntFcn, interpRay]

lemma common_delay_output_lengths (env : Env) (wm : WeatherModel)
    (lats lons heights : List EF) (lv : Option (List EF3)) (d : ℚ) (n : ℕ)
    (h1 : lats.length = n) (h2 : lons.length = n) (h3 : heights.length = n)
    (h4 : ∀ v, lv = some v → v.length = n) :
    (common_delay env wm lats lons heights lv d).fst.1.length = n
    ∧ (common_delay env wm lats lons heights lv d).fst.2.length = n := by
  cases lv with
  | none =>
    constructor <;>
      simp [common_delay, integrate_delays, get_lengths, mask_lengths,
        getZenithLookVecsE, zw3_length, List.length_zipWith, h1, h2, h3]
  | some v =>
    have hv : v.length = n := h4 v rfl
    constructor <;>
      simp [common_delay, integrate_delays, get_lengths, mask_lengths,
        zw3_length, List.length_zipWith, h1, h2, h3, hv]

/-- Claim C2 as amended: `delay_from_grid` restores the input batch's leading
shape on both outputs when an explicit look-vector array is supplied, but
for the Zenith sentinel the reshape is skipped (the source guards it with
`if los is not Zenith`) and both outputs stay flat, with length equal to the
number of ground points. -/
theorem delay_from_grid_shape (env : Env) (wm : WeatherModel) (llas a : Arr EF3)
    (hwf : llas.data.length = llas.shape.prod)
    (_hlen : a.data.length = llas.data.length) :
    ((delay_from_grid env wm llas (LOSInput.vecs a)).fst.1.shape = llas.shape)
    ∧ ((delay_from_grid env wm llas (LOSInput.vecs a)).fst.2.shape = llas.shape)
    ∧ ((delay_from_grid env wm llas LOSInput.zenith).fst.1.shape = [llas.shape.prod])
    ∧ ((delay_from_grid env wm llas LOSInput.zenith).fst.2.shape = [llas.shape.prod]) := by
  have h := common_delay_output_lengths env wm (llas.data.map (fun p => p.1))
    (llas.data.map (fun p => p.2.1)) (llas.data.map (fun p => p.2.2)) none env.step
    llas.data.length (by simp) (by simp) (by simp) (fun v hv => by cases hv)
  refine ⟨rfl, rfl, ?_, ?_⟩
  · simp [delay_from_grid, h.2, hwf]
  · simp [delay_from_grid, h.1, hwf]

/-- Witness for C2 on a well-formed 2 x 2 batch. -/
theorem delay_from_grid_shape_witness :
    llas0.data.length = llas0.shape.prod ∧ a0.data.length = llas0.data.length ∧
    (((delay_from_grid env0 wm0 llas0 (LOSInput.vecs a0)).fst.1.shape = llas0.shape)
      ∧ ((delay_from_grid env0 wm0 llas0 (LOSInput.vecs a0)).fst.2.shape = llas0.shape)
      ∧ ((delay_from_grid env0 wm0 llas0 LOSInput.zenith).fst.1.shape = [llas0.shape.prod])
      ∧ ((delay_from_grid env0 wm0 llas0 LOSInput.zenith).fst.2.shape = [llas0.shape.prod])) :=
  ⟨by decide, by decide, delay_from_grid_shape env0 wm0 llas0 a0 (by decide) (by decide)⟩

/-- Counterexample for C2 as stated: on a 2 x 2 batch of ground points with
the Zenith sentinel, the hydrostatic output of `delay_from_grid` does not
have the input's leading shape (it is flat of length 4, not 2 x 2). -/
theorem zenith_output_not_reshaped :
    (delay_from_grid env0 wm0 llas0 LOSInput.zenith).fst.1.shape ≠ llas0.shape := by
  have h := common_delay_output_lengths env0 wm0 (llas0.data.map (fun p => p.1))
    (llas0.data.map (fun p => p.2.1)) (llas0.data.map (fun p => p.2.2)) none env0.step
    4 (by simp [llas0]) (by simp [llas0]) (by simp [llas0]) (fun v hv => by cases hv)
  simp only [delay_from_grid, h.2]
  simp [llas0]

/-- Claim C1 (code evaluation at the failing input): on a single ground
point with NaN height and an explicit unit look vector, the pipeline returns
the delay pair (0, 0), not (NaN, NaN): the masked NaN length makes
`np.arange` raise, the caught exception yields an empty ray, and the
NaN-skipping integrator maps the empty ray to exactly zero. -/
theorem nan_height_point_zero_delay :
    (delay_from_grid env0 wm0 llas1 (LOSInput.vecs a1)).fst
      = (⟨[1], [EF.fin 0]⟩, ⟨[1], [EF.fin 0]⟩) := by
  simp [delay_from_grid, common_delay, env0, wm0, llas1, a1, get_lengths,
    mask_lengths, normE, sumSq3, div3, compute_ray, npArangeE, integrate_delays,
    int_fcn, npNansum, getIntFcn, interpRay, zw3, EF.mul, EF.add, EF.div,
    EF.isNan, EF.isFinite]

/-- Claim C3: whenever the lat, lon and height arrays do not all share one
shape, or an explicit look-vector array's leading shape differs from the
height array's shape, `_tropo_delay_with_values` raises (a `ValueError` from
the shape test, or the `NameError` on the unbound `test2` local) before any
delay computation, producing no output; and `delay_from_files` raises
`ValueError` on lat/lon/height shape mismatch before calling
`delay_from_grid`. -/
theorem structural_mismatch_rejected (env : Env) (wm : WeatherModel) (los : LOSInput)
    (lats lons hts : Arr EF)
    (h : ¬ (hts.shape = lats.shape ∧ lats.shape = lons.shape)
        ∨ ∃ a, los = LOSInput.vecs a ∧ a.shape ≠ hts.shape) :
    (∃ e, tropo_delay_with_values env wm los lats lons hts = Except.error e)
    ∧ (∀ lats2 lons2 hts2 : Arr EF, ∀ los2 : LOSInput,
        ¬ (lats2.shape = lons2.shape ∧ lons2.shape = hts2.shape) →
        delay_from_files env wm lats2 lons2 hts2 los2 = Except.error PyErr.valueError) := by
  constructor
  · by_cases h1 : hts.shape = lats.shape ∧ lats.shape = lons.shape
    · rcases h with h | ⟨a, rfl, hsh⟩
      · exact absurd h1 h
      · exact ⟨PyErr.nameError, by simp [tropo_delay_with_values, h1.1, h1.2]⟩
    · exact ⟨PyErr.valueError, by simp [tropo_delay_with_values, h1]⟩
  · intro lats2 lons2 hts2 los2 h2
    simp [delay_from_files, h2]

/-- Witness for C3: a 2 x 2 lat/lon raster with a length-3 height raster. -/
theorem structural_mismatch_rejected_witness :
    (¬ (lat3.shape = lat22.shape ∧ lat22.shape = lat22.shape)
        ∨ ∃ a, LOSInput.zenith = LOSInput.vecs a ∧ a.shape ≠ lat3.shape)
    ∧ ((∃ e, tropo_delay_with_values env0 wm0 LOSInput.zenith lat22 lat22 lat3
          = Except.error e)
        ∧ (∀ lats2 lons2 hts2 : Arr EF, ∀ los2 : LOSInput,
            ¬ (lats2.shape = lons2.shape ∧ lons2.shape = hts2.shape) →
            delay_from_files env0 wm0 lats2 lons2 hts2 los2
              = Except.error PyErr.valueError)) :=
  ⟨Or.inl (by decide),
    structural_mismatch_rejected env0 wm0 LOSInput.zenith lat22 lat22 lat3
      (Or.inl (by decide))⟩

end Raider

